import Mathlib

/-!
Verification of the virtual-memory simulator `src/vos/vm.py`.

The Python module is embedded shallowly: every class becomes a structure,
every method a pure function, and the mutable object state is threaded
explicitly.  Python exceptions are modelled with `Except`; because a Python
method can mutate `self` before raising, the error value carries the state of
the object at the moment the exception is raised (`VMError × VM`), so that
partial-mutation behaviour stays observable.

Module constants (`vm.py`, lines 5-7).
-/

set_option maxRecDepth 100000

def PAGE_SIZE : Nat := 256
def VIRTUAL_PAGES : Nat := 16
def PHYSICAL_FRAMES : Nat := 8

/-- The exception kinds the module can raise.
`invalidPageNumber` is the `ValueError` from the page-number range checks,
`outOfFrames` the `RuntimeError` from `alloc_frame`, and `indexOutOfRange`
covers Python `IndexError`/`KeyError` from list/deque/dict access. -/
inductive VMError where
  | invalidPageNumber
  | outOfFrames
  | indexOutOfRange
deriving DecidableEq

/-- `PTEntry` (`vm.py`, lines 10-23): page table entry for one virtual page. -/
structure PTEntry where
  frame : Option Nat := none
  present : Bool := false
  dirty : Bool := false
deriving DecidableEq

/-- `PageTable.__init__` builds one default `PTEntry` per virtual page
(keys `0 .. VIRTUAL_PAGES - 1`); the dict is modelled as a list indexed by
page number. -/
def PageTable.init : List PTEntry :=
  List.replicate VIRTUAL_PAGES {}

/-- `PageTable.get` (`vm.py`, lines 38-48): range-check the page number
(`ValueError` when out of `[0, VIRTUAL_PAGES)`), then look the entry up. -/
def PageTable.get (entries : List PTEntry) (page_no : Int) :
    Except VMError PTEntry :=
  if page_no < 0 || (VIRTUAL_PAGES : Int) ≤ page_no then
    Except.error VMError.invalidPageNumber
  else
    match entries.get? page_no.toNat with
    | some e => Except.ok e
    | none => Except.error VMError.indexOutOfRange

/-- `PhysicalMemory` (`vm.py`, lines 51-99): `frames` is the list of
`PHYSICAL_FRAMES` bytearrays of length `PAGE_SIZE` (bytes as `Nat < 256`),
`free_frames` the deque of free frame indices (head = left end). -/
structure PhysicalMemory where
  frames : List (List Nat)
  free_frames : List Nat
deriving DecidableEq

/-- `PhysicalMemory.__init__` (`vm.py`, lines 60-66). -/
def PhysicalMemory.init : PhysicalMemory :=
  { frames := List.replicate PHYSICAL_FRAMES (List.replicate PAGE_SIZE 0)
  , free_frames := List.range PHYSICAL_FRAMES }

/-- `PhysicalMemory.has_free_frame` (`vm.py`, lines 68-70). -/
def PhysicalMemory.has_free_frame (pm : PhysicalMemory) : Bool :=
  decide (0 < pm.free_frames.length)

/-- `PhysicalMemory.alloc_frame` (`vm.py`, lines 72-80): pop the leftmost
free frame; `RuntimeError` when the pool is empty. -/
def PhysicalMemory.alloc_frame (pm : PhysicalMemory) :
    Except VMError (Nat × PhysicalMemory) :=
  match pm.free_frames with
  | [] => Except.error VMError.outOfFrames
  | f :: rest => Except.ok (f, { pm with free_frames := rest })

/-- `PhysicalMemory.free_frame` (`vm.py`, lines 82-86). -/
def PhysicalMemory.free_frame (pm : PhysicalMemory) (frame_no : Nat) :
    PhysicalMemory :=
  { pm with free_frames := pm.free_frames ++ [frame_no] }

/-- Python's effective index for a sequence of length `n`: a negative index
counts from the end. -/
def pyAdjust (n : Nat) (i : Int) : Int :=
  if i < 0 then i + n else i

/-- Python list indexing `l[i]`: the access raises `IndexError` when the
adjusted index is out of range. -/
def pyIndex (l : List α) (i : Int) : Option α :=
  if pyAdjust l.length i < 0 then none
  else l.get? (pyAdjust l.length i).toNat

/-- Python list element assignment `l[i] = a`, with the same index rules. -/
def pySet (l : List α) (i : Int) (a : α) : Option (List α) :=
  if pyAdjust l.length i < 0 then none
  else if (pyAdjust l.length i).toNat < l.length then
    some (l.set (pyAdjust l.length i).toNat a)
  else none

/-- `PhysicalMemory.read_byte` (`vm.py`, lines 88-92):
`self.frames[frame_no][offset]`. -/
def PhysicalMemory.read_byte (pm : PhysicalMemory) (frame_no offset : Int) :
    Except VMError Nat :=
  match pyIndex pm.frames frame_no with
  | none => Except.error VMError.indexOutOfRange
  | some fr =>
    match pyIndex fr offset with
    | none => Except.error VMError.indexOutOfRange
    | some b => Except.ok b

/-- `PhysicalMemory.write_byte` (`vm.py`, lines 94-99):
`self.frames[frame_no][offset] = value & 0xFF`.  Python's `value & 0xFF`
equals `value mod 256` for every integer. -/
def PhysicalMemory.write_byte (pm : PhysicalMemory)
    (frame_no offset value : Int) : Except VMError PhysicalMemory :=
  match pyIndex pm.frames frame_no with
  | none => Except.error VMError.indexOutOfRange
  | some fr =>
    match pySet fr offset (value % (256 : Int)).toNat with
    | none => Except.error VMError.indexOutOfRange
    | some fr' =>
      match pySet pm.frames frame_no fr' with
      | none => Except.error VMError.indexOutOfRange
      | some frames' => Except.ok { pm with frames := frames' }

/-- Lookup in the `frame_to_page` dict (frame number to page number). -/
def dictLookup (d : List (Nat × Nat)) (k : Nat) : Option Nat :=
  match d with
  | [] => none
  | (k', v) :: rest => if k' = k then some v else dictLookup rest k

/-- `d[k] = v` on the `frame_to_page` dict: update in place or append. -/
def dictInsert (d : List (Nat × Nat)) (k v : Nat) : List (Nat × Nat) :=
  match d with
  | [] => [(k, v)]
  | (k', v') :: rest =>
    if k' = k then (k, v) :: rest else (k', v') :: dictInsert rest k v

/-- `VM` state (`vm.py`, lines 110-124): page table, physical memory,
backing store (one byte buffer per virtual page), the frame→page reverse
map, and the FIFO replacement queue of frame numbers (head = left end). -/
structure VM where
  page_table : List PTEntry
  phys_mem : PhysicalMemory
  backing_store : List (List Nat)
  frame_to_page : List (Nat × Nat)
  fifo_queue : List Nat
deriving DecidableEq

/-- `VM.__init__` (`vm.py`, lines 110-124). -/
def VM.init : VM :=
  { page_table := PageTable.init
  , phys_mem := PhysicalMemory.init
  , backing_store := List.replicate VIRTUAL_PAGES (List.replicate PAGE_SIZE 0)
  , frame_to_page := []
  , fifo_queue := [] }

/-- Step 4 of `VM._ensure_in_ram` (`vm.py`, lines 149-172): obtain a frame
for a faulting page — allocate a free frame if one exists, otherwise evict
the FIFO victim (writing it back to the backing store when dirty) and reuse
its frame.  Returns the updated state and the chosen frame; an error carries
the state at the moment the corresponding Python exception is raised. -/
def VM.obtain_frame (vm : VM) : Except (VMError × VM) (VM × Nat) :=
  if vm.phys_mem.has_free_frame then
    match vm.phys_mem.alloc_frame with
    | Except.error e => Except.error (e, vm)
    | Except.ok (frame, pm') => Except.ok ({ vm with phys_mem := pm' }, frame)
  else
    match vm.fifo_queue with
    | [] => Except.error (VMError.indexOutOfRange, vm)
    | victim_frame :: qrest =>
      -- `popleft` has already removed the victim from the queue
      let vm1 : VM := { vm with fifo_queue := qrest }
      match dictLookup vm.frame_to_page victim_frame with
      | none => Except.error (VMError.indexOutOfRange, vm1)
      | some victim_page =>
        match PageTable.get vm.page_table (victim_page : Int) with
        | Except.error e => Except.error (e, vm1)
        | Except.ok victim_entry =>
          -- dirty write-back: backing_store[victim_page][:] = frames[victim_frame],
          -- then victim_entry.present = False; .frame = None; .dirty = False
          if victim_entry.dirty && victim_entry.frame.isSome then
            match vm.phys_mem.frames.get? victim_frame with
            | none => Except.error (VMError.indexOutOfRange, vm1)
            | some contents =>
              if victim_page < vm.backing_store.length then
                Except.ok
                  ({ vm1 with
                      page_table := vm.page_table.set victim_page {}
                      backing_store := vm.backing_store.set victim_page contents }
                  , victim_frame)
              else Except.error (VMError.indexOutOfRange, vm1)
          else
            Except.ok
              ({ vm1 with page_table := vm.page_table.set victim_page {} }
              , victim_frame)

/-- Steps 5-8 of `VM._ensure_in_ram` (`vm.py`, lines 174-188): load the
requested page from the backing store into the chosen frame, mark its entry
present and clean, update the reverse map, and append the frame to the FIFO
queue when it is not already there. -/
def VM.page_in (vm : VM) (page_no frame : Nat) :
    Except (VMError × VM) (VM × Nat) :=
  match vm.backing_store.get? page_no with
  | none => Except.error (VMError.indexOutOfRange, vm)
  | some src =>
    if frame < vm.phys_mem.frames.length then
      Except.ok
        ({ page_table :=
             vm.page_table.set page_no
               { frame := some frame, present := true, dirty := false }
         , phys_mem :=
             { frames := vm.phys_mem.frames.set frame src
             , free_frames := vm.phys_mem.free_frames }
         , backing_store := vm.backing_store
         , frame_to_page := dictInsert vm.frame_to_page frame page_no
         , fifo_queue :=
             if vm.fifo_queue.contains frame then vm.fifo_queue
             else vm.fifo_queue ++ [frame] }
        , frame)
    else Except.error (VMError.indexOutOfRange, vm)

/-- `VM._ensure_in_ram` (`vm.py`, lines 126-188), the public
`ensure_resident` operation: validate the page number, return the frame on a
hit, otherwise resolve the fault (obtain a frame, page in) and return the
chosen frame. -/
def VM.ensure_in_ram (vm : VM) (page_no : Int) :
    Except (VMError × VM) (VM × Nat) :=
  -- 1) validate page number
  if page_no < 0 || (VIRTUAL_PAGES : Int) ≤ page_no then
    Except.error (VMError.invalidPageNumber, vm)
  else
    -- 2) look up the page table entry
    match PageTable.get vm.page_table page_no with
    | Except.error e => Except.error (e, vm)
    | Except.ok entry =>
      -- 3) if already present, just return its frame
      match entry.present, entry.frame with
      | true, some f => Except.ok (vm, f)
      | _, _ =>
        -- 4) page fault: obtain a frame, then 5-8) page in
        match vm.obtain_frame with
        | Except.error e => Except.error e
        | Except.ok (vm1, frame) => vm1.page_in page_no.toNat frame

/-- Scenario driver: run `ensure_in_ram` for one page and keep the resulting
state (on an exception Python would leave the raise-time state behind). -/
def stepOk (vm : VM) (p : Int) : VM :=
  match vm.ensure_in_ram p with
  | Except.ok (v, _) => v
  | Except.error (_, v) => v

/-- Scenario driver: run `ensure_in_ram` on a fresh `VM` for a whole access
sequence. -/
def scen (ps : List Int) : VM :=
  ps.foldl stepOk VM.init

/-- The frame index `ensure_in_ram` returns for a page, if it succeeds. -/
def frameOf (vm : VM) (p : Int) : Option Nat :=
  match vm.ensure_in_ram p with
  | Except.ok (_, f) => some f
  | Except.error _ => none

/-- The access sequence `0, 1, ..., k-1`. -/
def firstPages (k : Nat) : List Int :=
  (List.range k).map Int.ofNat

/-- The byte-level write API layered on top of the pager (spec section 4.3):
after mutating a byte of a resident page's frame it sets `dirty = true` on
that page's entry.  Only the dirty-bit update is relevant to the pager's
state, so it is modelled directly. -/
def VM.mark_dirty (vm : VM) (p : Nat) : VM :=
  match vm.page_table.get? p with
  | some e => { vm with page_table := vm.page_table.set p { e with dirty := true } }
  | none => vm

/-- The byte-level write through a resolved frame: `write_byte` on physical
memory followed by `mark_dirty` on the written page (spec section 4.3). -/
def VM.write_resident (vm : VM) (p : Nat) (offset value : Int) : VM :=
  match vm.page_table.get? p with
  | some e =>
    match e.frame with
    | some f =>
      match vm.phys_mem.write_byte (f : Int) offset value with
      | Except.ok pm' => VM.mark_dirty { vm with phys_mem := pm' } p
      | Except.error _ => vm
    | none => vm
  | none => vm

/-- The VM states reachable from a fresh `VM` by `ensure_in_ram` calls and
by the byte-level write API (which marks a present page dirty). -/
inductive VM.Reachable : VM → Prop
  | init : VM.Reachable VM.init
  | ensure (vm vm' : VM) (p : Int) (f : Nat) :
      VM.Reachable vm → vm.ensure_in_ram p = Except.ok (vm', f) →
      VM.Reachable vm'
  | write (vm : VM) (p : Nat) (offset value : Int) :
      VM.Reachable vm → VM.Reachable (vm.write_resident p offset value)

/-- C1: from a fresh VM (`PAGE_SIZE = 256`, `VIRTUAL_PAGES = 16`,
`PHYSICAL_FRAMES = 8`), accessing pages `0..7` in order gives 8 faults
(each page is Absent beforehand) assigned the pairwise-distinct frames
`0..7` and empties the free pool; a subsequent access of page `8` faults,
evicts exactly page `0` (FIFO) and reuses frame `0`; a further access of
page `0` faults again and evicts exactly page `1`, while all other resident
pages remain hits (same frame, no state change). -/
theorem c1_fifo_scenario :
    ((scen (firstPages 0)).page_table.get? 0 = some {} ∧
      frameOf (scen (firstPages 0)) 0 = some 0) ∧
    ((scen (firstPages 1)).page_table.get? 1 = some {} ∧
      frameOf (scen (firstPages 1)) 1 = some 1) ∧
    ((scen (firstPages 2)).page_table.get? 2 = some {} ∧
      frameOf (scen (firstPages 2)) 2 = some 2) ∧
    ((scen (firstPages 3)).page_table.get? 3 = some {} ∧
      frameOf (scen (firstPages 3)) 3 = some 3) ∧
    ((scen (firstPages 4)).page_table.get? 4 = some {} ∧
      frameOf (scen (firstPages 4)) 4 = some 4) ∧
    ((scen (firstPages 5)).page_table.get? 5 = some {} ∧
      frameOf (scen (firstPages 5)) 5 = some 5) ∧
    ((scen (firstPages 6)).page_table.get? 6 = some {} ∧
      frameOf (scen (firstPages 6)) 6 = some 6) ∧
    ((scen (firstPages 7)).page_table.get? 7 = some {} ∧
      frameOf (scen (firstPages 7)) 7 = some 7) ∧
    (scen (firstPages 8)).phys_mem.free_frames = [] ∧
    (scen (firstPages 8)).page_table.get? 8 = some {} ∧
    frameOf (scen (firstPages 8)) 8 = some 0 ∧
    (scen (firstPages 8 ++ [8])).page_table.get? 0 = some {} ∧
    (scen (firstPages 8 ++ [8])).page_table.get? 1 =
      some { frame := some 1, present := true, dirty := false } ∧
    (scen (firstPages 8 ++ [8])).page_table.get? 2 =
      some { frame := some 2, present := true, dirty := false } ∧
    (scen (firstPages 8 ++ [8])).page_table.get? 3 =
      some { frame := some 3, present := true, dirty := false } ∧
    (scen (firstPages 8 ++ [8])).page_table.get? 4 =
      some { frame := some 4, present := true, dirty := false } ∧
    (scen (firstPages 8 ++ [8])).page_table.get? 5 =
      some { frame := some 5, present := true, dirty := false } ∧
    (scen (firstPages 8 ++ [8])).page_table.get? 6 =
      some { frame := some 6, present := true, dirty := false } ∧
    (scen (firstPages 8 ++ [8])).page_table.get? 7 =
      some { frame := some 7, present := true, dirty := false } ∧
    (scen (firstPages 8 ++ [8])).page_table.get? 8 =
      some { frame := some 0, present := true, dirty := false } ∧
    frameOf (scen (firstPages 8 ++ [8])) 0 = some 1 ∧
    (scen (firstPages 8 ++ [8, 0])).page_table.get? 1 = some {} ∧
    (frameOf (scen (firstPages 8 ++ [8, 0])) 2 = some 2 ∧
      stepOk (scen (firstPages 8 ++ [8, 0])) 2 = scen (firstPages 8 ++ [8, 0])) ∧
    (frameOf (scen (firstPages 8 ++ [8, 0])) 3 = some 3 ∧
      stepOk (scen (firstPages 8 ++ [8, 0])) 3 = scen (firstPages 8 ++ [8, 0])) ∧
    (frameOf (scen (firstPages 8 ++ [8, 0])) 4 = some 4 ∧
      stepOk (scen (firstPages 8 ++ [8, 0])) 4 = scen (firstPages 8 ++ [8, 0])) ∧
    (frameOf (scen (firstPages 8 ++ [8, 0])) 5 = some 5 ∧
      stepOk (scen (firstPages 8 ++ [8, 0])) 5 = scen (firstPages 8 ++ [8, 0])) ∧
    (frameOf (scen (firstPages 8 ++ [8, 0])) 6 = some 6 ∧
      stepOk (scen (firstPages 8 ++ [8, 0])) 6 = scen (firstPages 8 ++ [8, 0])) ∧
    (frameOf (scen (firstPages 8 ++ [8, 0])) 7 = some 7 ∧
      stepOk (scen (firstPages 8 ++ [8, 0])) 7 = scen (firstPages 8 ++ [8, 0])) ∧
    (frameOf (scen (firstPages 8 ++ [8, 0])) 8 = some 0 ∧
      stepOk (scen (firstPages 8 ++ [8, 0])) 8 = scen (firstPages 8 ++ [8, 0])) ∧
    (frameOf (scen (firstPages 8 ++ [8, 0])) 0 = some 1 ∧
      stepOk (scen (firstPages 8 ++ [8, 0])) 0 = scen (firstPages 8 ++ [8, 0])) := by
  refine ⟨?_, ?_, ?_, ?_, ?_, ?_, ?_, ?_, ?_, ?_, ?_, ?_, ?_, ?_, ?_, ?_, ?_,
    ?_, ?_, ?_, ?_, ?_, ?_, ?_, ?_, ?_, ?_, ?_, ?_, ?_⟩ <;> decide

/-- A concrete full-pool state with page 0 resident-clean in frame 0, used
to exercise the clean-eviction path on small byte buffers. -/
def c7vm : VM :=
  { page_table :=
      { frame := some 0, present := true, dirty := false } ::
        List.replicate 15 ({} : PTEntry)
  , phys_mem := { frames := [[7]], free_frames := [] }
  , backing_store := [[1], [2]]
  , frame_to_page := [(0, 0)]
  , fifo_queue := [0] }

/-- The state after `ensure_in_ram c7vm 1` (evicts clean page 0). -/
def c7vmA : VM := stepOk c7vm 1

/-- A concrete full-pool state with page 0 resident-dirty in frame 0 (frame
holds byte 7, its backing slot byte 1), used to exercise write-back. -/
def c2vm : VM :=
  { page_table :=
      { frame := some 0, present := true, dirty := true } ::
        List.replicate 15 ({} : PTEntry)
  , phys_mem := { frames := [[7]], free_frames := [] }
  , backing_store := [[1], [2]]
  , frame_to_page := [(0, 0)]
  , fifo_queue := [0] }

/-- The state after `ensure_in_ram c2vm 1` (evicts dirty page 0, writing
its frame bytes back to the backing store). -/
def c2vmA : VM := stepOk c2vm 1

/-- The state after additionally re-loading evicted page 0. -/
def c2vmB : VM := stepOk c2vmA 0

/-- The physical memory after writing value 300 at frame 0, offset 0 (the
stored byte is 300 mod 256 = 44). -/
def c9pm : PhysicalMemory :=
  match PhysicalMemory.init.write_byte 0 0 300 with
  | Except.ok pm => pm
  | Except.error _ => PhysicalMemory.init

/-! ## Helper lemmas -/

theorem PageTable.get_no_outOfFrames (es : List PTEntry) (p : Int) :
    PageTable.get es p ≠ Except.error VMError.outOfFrames := by
  unfold PageTable.get
  split
  · simp
  · split <;> simp

theorem PhysicalMemory.alloc_frame_of_has_free (pm : PhysicalMemory)
    (h : pm.has_free_frame = true) :
    ∃ f rest, pm.free_frames = f :: rest ∧
      pm.alloc_frame = Except.ok (f, { pm with free_frames := rest }) := by
  unfold PhysicalMemory.has_free_frame at h
  unfold PhysicalMemory.alloc_frame
  match hq : pm.free_frames with
  | [] => rw [hq] at h; simp at h
  | f :: rest => exact ⟨f, rest, rfl, rfl⟩

theorem VM.obtain_frame_no_outOfFrames (vm : VM) (s : VM) :
    vm.obtain_frame ≠ Except.error (VMError.outOfFrames, s) := by
  unfold VM.obtain_frame
  split
  · rename_i hfree
    obtain ⟨f, rest, -, hall⟩ := vm.phys_mem.alloc_frame_of_has_free hfree
    rw [hall]
    simp
  · split
    · simp
    · split
      · simp
      · split
        · rename_i heq
          intro hcontra
          rw [Except.error.injEq, Prod.mk.injEq] at hcontra
          exact PageTable.get_no_outOfFrames _ _ (hcontra.1 ▸ heq)
        · split
          · split
            · simp
            · split <;> simp
          · simp

/-- C5: `ensure_in_ram` never raises `OutOfFrames` (the `alloc_frame` error
branch is unreachable from the fault path): for every state and every page
number, the result is never the `OutOfFrames` error, because `alloc_frame`
is invoked only under `has_free_frame` and the fault path otherwise falls
back to FIFO eviction. -/
theorem c5_ensure_in_ram_no_outOfFrames (vm : VM) (p : Int) (s : VM) :
    vm.ensure_in_ram p ≠ Except.error (VMError.outOfFrames, s) := by
  unfold VM.ensure_in_ram
  split
  · simp
  · split
    · rename_i heq
      intro hcontra
      rw [Except.error.injEq, Prod.mk.injEq] at hcontra
      exact PageTable.get_no_outOfFrames _ _ (hcontra.1 ▸ heq)
    · split
      · simp
      · split
        · rename_i heq
          intro hcontra
          exact vm.obtain_frame_no_outOfFrames s (hcontra ▸ heq)
        · rename_i vm1 frame heq
          unfold VM.page_in
          split
          · simp
          · split <;> simp

theorem VM.page_in_ok_shape (vm : VM) (p fr : Nat) (vm' : VM) (f : Nat)
    (h : vm.page_in p fr = Except.ok (vm', f)) :
    f = fr ∧ fr < vm.phys_mem.frames.length ∧
    ∃ src, vm.backing_store.get? p = some src ∧
      vm' = { page_table :=
                vm.page_table.set p
                  { frame := some fr, present := true, dirty := false }
            , phys_mem := { frames := vm.phys_mem.frames.set fr src
                          , free_frames := vm.phys_mem.free_frames }
            , backing_store := vm.backing_store
            , frame_to_page := dictInsert vm.frame_to_page fr p
            , fifo_queue := if vm.fifo_queue.contains fr then vm.fifo_queue
                            else vm.fifo_queue ++ [fr] } := by
  unfold VM.page_in at h
  split at h
  · simp at h
  · rename_i src heq
    split at h
    · rename_i hlt
      rw [Except.ok.injEq, Prod.mk.injEq] at h
      exact ⟨h.2.symm, hlt, src, heq, h.1.symm⟩
    · simp at h

theorem VM.obtain_frame_ok_shape (vm vm1 : VM) (fr : Nat)
    (h : vm.obtain_frame = Except.ok (vm1, fr)) :
    vm1.phys_mem.frames = vm.phys_mem.frames ∧
    vm1.page_table.length = vm.page_table.length ∧
    vm1.backing_store.length = vm.backing_store.length ∧
    vm1.frame_to_page = vm.frame_to_page := by
  unfold VM.obtain_frame at h
  split at h
  · split at h
    · simp at h
    · rename_i frame pm' heq
      unfold PhysicalMemory.alloc_frame at heq
      split at heq
      · simp at heq
      · rw [Except.ok.injEq, Prod.mk.injEq] at heq
        obtain ⟨-, h2⟩ := heq
        rw [Except.ok.injEq, Prod.mk.injEq] at h
        obtain ⟨h1, -⟩ := h
        subst h1
        rw [← h2]
        simp
  · split at h
    · simp at h
    · split at h
      · simp at h
      · split at h
        · simp at h
        · split at h
          · split at h
            · simp at h
            · split at h
              · rw [Except.ok.injEq, Prod.mk.injEq] at h
                obtain ⟨h1, -⟩ := h
                subst h1
                simp
              · simp at h
          · rw [Except.ok.injEq, Prod.mk.injEq] at h
            obtain ⟨h1, -⟩ := h
            subst h1
            simp

/-- C3: idempotence of `ensure_in_ram`.  If a call on a page table of the
constructed size returns frame `f` in state `vm'`, an immediately repeated
call returns the same frame `f` and performs no state change at all (the
result state is `vm'` itself, so page table, frames, free pool, FIFO queue,
reverse map and backing store are untouched). -/
theorem c3_ensure_in_ram_idempotent (vm vm' : VM) (p : Int) (f : Nat)
    (hlen : vm.page_table.length = VIRTUAL_PAGES)
    (h : vm.ensure_in_ram p = Except.ok (vm', f)) :
    vm'.ensure_in_ram p = Except.ok (vm', f) := by
  unfold VM.ensure_in_ram at h ⊢
  split at h
  · simp at h
  · rename_i hguard
    rw [if_neg hguard]
    split at h
    · simp at h
    · rename_i entry heqget
      split at h
      · -- hit: the state is unchanged, so the second call is the same call
        rename_i f0 hpres hfr
        rw [Except.ok.injEq, Prod.mk.injEq] at h
        obtain ⟨h1, h2⟩ := h
        subst h1; subst h2
        rw [heqget]
        dsimp only
        rw [hpres, hfr]
      · -- fault: the new entry is present with the chosen frame
        rename_i hnothit
        split at h
        · simp at h
        · rename_i vm1 frame heqobtain
          obtain ⟨hf, hframe_lt, src, hsrc, hvm'⟩ :=
            vm1.page_in_ok_shape p.toNat frame vm' f h
          obtain ⟨-, hptlen, -, -⟩ :=
            vm.obtain_frame_ok_shape vm1 frame heqobtain
          have hp : p.toNat < vm1.page_table.length := by
            rw [hptlen, hlen]
            simp only [Bool.or_eq_true, decide_eq_true_eq, not_or] at hguard
            unfold VIRTUAL_PAGES at hguard ⊢
            omega
          have hget' : PageTable.get vm'.page_table p =
              Except.ok { frame := some frame, present := true, dirty := false } := by
            unfold PageTable.get
            rw [if_neg hguard, hvm']
            simp only
            rw [List.get?_eq_getElem?, List.getElem?_set, if_pos rfl, if_pos hp]
          rw [hget', hvm', hf]

theorem c3_ensure_in_ram_idempotent_witness :
    VM.init.page_table.length = VIRTUAL_PAGES ∧
    VM.ensure_in_ram VM.init 0 = Except.ok (scen [0], 0) ∧
    (scen [0]).ensure_in_ram 0 = Except.ok (scen [0], 0) :=
  ⟨by decide, by rfl,
    c3_ensure_in_ram_idempotent VM.init (scen [0]) 0 0 (by decide) (by rfl)⟩

theorem VM.obtain_frame_evict_ok (vm vm1 : VM) (fr fr2 : Nat) (rest : List Nat)
    (q : Nat) (ve : PTEntry)
    (hfree : vm.phys_mem.has_free_frame = false)
    (hq : vm.fifo_queue = fr :: rest)
    (hmap : dictLookup vm.frame_to_page fr = some q)
    (hent : PageTable.get vm.page_table (q : Int) = Except.ok ve)
    (h : vm.obtain_frame = Except.ok (vm1, fr2)) :
    fr2 = fr ∧
    ((ve.dirty && ve.frame.isSome) = true →
       ∃ contents, vm.phys_mem.frames.get? fr = some contents ∧
         q < vm.backing_store.length ∧
         vm1 = { vm with
                   page_table := vm.page_table.set q ({} : PTEntry)
                   backing_store := vm.backing_store.set q contents
                   fifo_queue := rest }) ∧
    ((ve.dirty && ve.frame.isSome) = false →
       vm1 = { vm with
                 page_table := vm.page_table.set q ({} : PTEntry)
                 fifo_queue := rest }) := by
  unfold VM.obtain_frame at h
  split at h
  · rename_i htrue
    rw [hfree] at htrue
    cases htrue
  · split at h
    · rename_i heq2
      rw [hq] at heq2
      cases heq2
    · rename_i vf' qrest' heq2
      rw [hq] at heq2
      rw [List.cons.injEq] at heq2
      obtain ⟨hvf, hrest⟩ := heq2
      subst hvf; subst hrest
      split at h
      · rename_i heq3
        rw [hmap] at heq3
        cases heq3
      · rename_i q2 heq3
        rw [hmap, Option.some.injEq] at heq3
        subst heq3
        split at h
        · rename_i heq4
          rw [hent] at heq4
          cases heq4
        · rename_i ve' heq4
          rw [hent, Except.ok.injEq] at heq4
          subst heq4
          split at h
          · rename_i hwb
            split at h
            · simp at h
            · rename_i contents heq5
              split at h
              · rename_i hqlen
                rw [Except.ok.injEq, Prod.mk.injEq] at h
                obtain ⟨h1, h2⟩ := h
                refine ⟨h2.symm, fun _ => ⟨contents, heq5, hqlen, h1.symm⟩,
                  fun hc => ?_⟩
                rw [hwb] at hc
                cases hc
              · simp at h
          · rename_i hwb
            rw [Except.ok.injEq, Prod.mk.injEq] at h
            obtain ⟨h1, h2⟩ := h
            rw [Bool.not_eq_true] at hwb
            exact ⟨h2.symm, fun hc => absurd hc (by rw [hwb]; simp),
              fun _ => h1.symm⟩

/-- C7: clean eviction never touches the backing store.  If the FIFO victim
page's entry is not dirty, a successful `ensure_in_ram` call (which evicts
that victim when the free pool is empty) leaves the whole backing store —
in particular the victim's slot — byte-for-byte unchanged. -/
theorem c7_clean_eviction_preserves_backing_store
    (vm vm' : VM) (p : Int) (f fr : Nat) (rest : List Nat)
    (q : Nat) (ve : PTEntry)
    (hfree : vm.phys_mem.has_free_frame = false)
    (hq : vm.fifo_queue = fr :: rest)
    (hmap : dictLookup vm.frame_to_page fr = some q)
    (hent : PageTable.get vm.page_table (q : Int) = Except.ok ve)
    (hclean : ve.dirty = false)
    (h : vm.ensure_in_ram p = Except.ok (vm', f)) :
    vm'.backing_store = vm.backing_store := by
  unfold VM.ensure_in_ram at h
  split at h
  · simp at h
  · split at h
    · simp at h
    · rename_i entry heqget
      split at h
      · rw [Except.ok.injEq, Prod.mk.injEq] at h
        obtain ⟨h1, -⟩ := h
        rw [← h1]
      · split at h
        · simp at h
        · rename_i vm1 frame heqobtain
          obtain ⟨-, -, hcleancase⟩ :=
            vm.obtain_frame_evict_ok vm1 fr frame rest q ve hfree hq hmap hent
              heqobtain
          have hvm1 := hcleancase (by rw [hclean]; simp)
          obtain ⟨-, -, src, hsrc, hvm2⟩ :=
            vm1.page_in_ok_shape p.toNat frame vm' f h
          rw [hvm2, hvm1]

theorem VM.ensure_fault_loads (vm vm' : VM) (p : Int) (f : Nat) (ep : PTEntry)
    (B : List Nat)
    (hpe : PageTable.get vm.page_table p = Except.ok ep)
    (hepf : (ep.present && ep.frame.isSome) = false)
    (hbs : vm.backing_store.get? p.toNat = some B)
    (hnovict : ∀ vf rest q2, vm.fifo_queue = vf :: rest →
        dictLookup vm.frame_to_page vf = some q2 → q2 ≠ p.toNat)
    (h : vm.ensure_in_ram p = Except.ok (vm', f)) :
    vm'.phys_mem.frames.get? f = some B := by
  unfold VM.ensure_in_ram at h
  split at h
  · simp at h
  · split at h
    · simp at h
    · rename_i entry heqget
      rw [hpe, Except.ok.injEq] at heqget
      subst heqget
      split at h
      · rename_i f0 hpres hfr
        rw [hpres, hfr] at hepf
        simp at hepf
      · split at h
        · simp at h
        · rename_i vm1 frame heqobtain
          have hbs1 : vm1.backing_store.get? p.toNat = some B := by
            unfold VM.obtain_frame at heqobtain
            split at heqobtain
            · split at heqobtain
              · simp at heqobtain
              · rw [Except.ok.injEq, Prod.mk.injEq] at heqobtain
                obtain ⟨h1, -⟩ := heqobtain
                rw [← h1]
                exact hbs
            · split at heqobtain
              · simp at heqobtain
              · rename_i vf qrest hfifo
                split at heqobtain
                · simp at heqobtain
                · rename_i q2 hd
                  have hq2 : q2 ≠ p.toNat := hnovict vf qrest q2 hfifo hd
                  split at heqobtain
                  · simp at heqobtain
                  · split at heqobtain
                    · split at heqobtain
                      · simp at heqobtain
                      · rename_i contents hc
                        split at heqobtain
                        · rw [Except.ok.injEq, Prod.mk.injEq] at heqobtain
                          obtain ⟨h1, -⟩ := heqobtain
                          rw [← h1]
                          dsimp only
                          rw [List.get?_eq_getElem?, List.getElem?_set,
                            if_neg hq2, ← List.get?_eq_getElem?]
                          exact hbs
                        · simp at heqobtain
                    · rw [Except.ok.injEq, Prod.mk.injEq] at heqobtain
                      obtain ⟨h1, -⟩ := heqobtain
                      rw [← h1]
                      exact hbs
          obtain ⟨hf, hlt, src, hsrc, hvm2⟩ :=
            vm1.page_in_ok_shape p.toNat frame vm' f h
          have hsB : src = B := by
            rw [hsrc] at hbs1
            exact Option.some.inj hbs1
          rw [hvm2, hf]
          dsimp only
          rw [List.get?_eq_getElem?, List.getElem?_set, if_pos rfl,
            if_pos hlt, hsB]

/-- C2: dirty write-back.  When the free pool is empty and the FIFO victim
page `q` is resident and dirty, a faulting `ensure_in_ram` call reuses the
victim's frame `fr` and first copies that frame's full byte contents into
`q`'s backing-store slot; consequently a later faulting `ensure_in_ram` of
the evicted page, from any state whose slot for `q` still holds those bytes
and whose own eviction (if any) does not target `q`, loads a frame holding
exactly those bytes rather than the original zero-filled content. -/
theorem c2_dirty_writeback_and_reload
    (vm vm' : VM) (p : Int) (f fr : Nat) (rest : List Nat)
    (q : Nat) (ve ep : PTEntry)
    (hfree : vm.phys_mem.has_free_frame = false)
    (hq : vm.fifo_queue = fr :: rest)
    (hmap : dictLookup vm.frame_to_page fr = some q)
    (hent : PageTable.get vm.page_table (q : Int) = Except.ok ve)
    (hdirty : ve.dirty = true)
    (hsome : ve.frame.isSome = true)
    (hpe : PageTable.get vm.page_table p = Except.ok ep)
    (hepf : (ep.present && ep.frame.isSome) = false)
    (h : vm.ensure_in_ram p = Except.ok (vm', f)) :
    f = fr ∧
    vm'.backing_store.get? q = vm.phys_mem.frames.get? fr ∧
    (∀ (vm2 vm2' : VM) (f2 : Nat) (ep2 : PTEntry) (B : List Nat),
       PageTable.get vm2.page_table (q : Int) = Except.ok ep2 →
       (ep2.present && ep2.frame.isSome) = false →
       vm2.backing_store.get? q = some B →
       (∀ vf2 rest2 q2, vm2.fifo_queue = vf2 :: rest2 →
           dictLookup vm2.frame_to_page vf2 = some q2 → q2 ≠ q) →
       vm2.ensure_in_ram (q : Int) = Except.ok (vm2', f2) →
       vm2'.phys_mem.frames.get? f2 = some B) := by
  refine ⟨?_, ?_, ?_⟩
  case refine_3 =>
    intro vm2 vm2' f2 ep2 B hpe2 hepf2 hbs2 hnovict2 h2
    refine vm2.ensure_fault_loads vm2' (q : Int) f2 ep2 B hpe2 hepf2 ?_ ?_ h2
    · rw [Int.toNat_natCast]
      exact hbs2
    · rw [Int.toNat_natCast]
      exact hnovict2
  all_goals
    unfold VM.ensure_in_ram at h
    split at h
    · simp at h
    · split at h
      · simp at h
      · rename_i entry heqget
        rw [hpe, Except.ok.injEq] at heqget
        subst heqget
        split at h
        · rename_i f0 hpres hfr2
          rw [hpres, hfr2] at hepf
          simp at hepf
        · split at h
          · simp at h
          · rename_i vm1 frame heqobtain
            obtain ⟨hfr2, hdirtycase, -⟩ :=
              vm.obtain_frame_evict_ok vm1 fr frame rest q ve hfree hq hmap
                hent heqobtain
            obtain ⟨contents, hcont, hqlen, hvm1⟩ :=
              hdirtycase (by rw [hdirty, hsome]; rfl)
            obtain ⟨hff, hlt, src, hsrc, hvm2⟩ :=
              vm1.page_in_ok_shape p.toNat frame vm' f h
            first
            | exact hfr2 ▸ hff
            | · rw [hvm2, hvm1]
                dsimp only
                rw [List.get?_eq_getElem?, List.getElem?_set, if_pos rfl,
                  if_pos hqlen, hcont]

theorem c7_clean_eviction_preserves_backing_store_witness :
    c7vm.phys_mem.has_free_frame = false ∧
    c7vm.fifo_queue = 0 :: [] ∧
    dictLookup c7vm.frame_to_page 0 = some 0 ∧
    PageTable.get c7vm.page_table (0 : Int) =
      Except.ok { frame := some 0, present := true, dirty := false } ∧
    c7vm.ensure_in_ram 1 = Except.ok (c7vmA, 0) ∧
    c7vmA.backing_store = c7vm.backing_store :=
  ⟨by decide, by decide, by decide, by rfl, by rfl,
    c7_clean_eviction_preserves_backing_store c7vm c7vmA 1 0 0 [] 0
      { frame := some 0, present := true, dirty := false }
      (by decide) (by decide) (by decide) (by rfl) (by decide) (by rfl)⟩

theorem c2_dirty_writeback_and_reload_witness :
    c2vm.phys_mem.has_free_frame = false ∧
    c2vm.fifo_queue = 0 :: [] ∧
    dictLookup c2vm.frame_to_page 0 = some 0 ∧
    PageTable.get c2vm.page_table (0 : Int) =
      Except.ok { frame := some 0, present := true, dirty := true } ∧
    PageTable.get c2vm.page_table (1 : Int) = Except.ok ({} : PTEntry) ∧
    c2vm.ensure_in_ram 1 = Except.ok (c2vmA, 0) ∧
    c2vmA.backing_store.get? 0 = c2vm.phys_mem.frames.get? 0 ∧
    PageTable.get c2vmA.page_table (0 : Int) = Except.ok ({} : PTEntry) ∧
    c2vmA.backing_store.get? 0 = some [7] ∧
    c2vmA.ensure_in_ram (0 : Int) = Except.ok (c2vmB, 0) ∧
    c2vmB.phys_mem.frames.get? 0 = some [7] :=
  ⟨by decide, by decide, by decide, by rfl, by rfl, by rfl,
    (c2_dirty_writeback_and_reload c2vm c2vmA 1 0 0 [] 0
      { frame := some 0, present := true, dirty := true } ({} : PTEntry)
      (by decide) (by decide) (by decide) (by rfl) (by decide) (by decide)
      (by rfl) (by decide) (by rfl)).2.1,
    by rfl, by decide,
    by rfl,
    (c2_dirty_writeback_and_reload c2vm c2vmA 1 0 0 [] 0
      { frame := some 0, present := true, dirty := true } ({} : PTEntry)
      (by decide) (by decide) (by decide) (by rfl) (by decide) (by decide)
      (by rfl) (by decide) (by rfl)).2.2 c2vmA c2vmB 0 ({} : PTEntry) [7]
      (by rfl) (by decide) (by decide)
      (by intro vf2 rest2 q2 hf hd
          have hfq : c2vmA.fifo_queue = [0] := by decide
          rw [hfq, List.cons.injEq] at hf
          obtain ⟨h1, -⟩ := hf
          subst h1
          have hdl : dictLookup c2vmA.frame_to_page 0 = some 1 := by decide
          rw [hdl, Option.some.injEq] at hd
          subst hd
          decide)
      (by rfl)⟩

/-- C10: a faulting `ensure_in_ram` call modifies the byte contents of at
most the frame it returns — every other frame is byte-for-byte unchanged —
and the returned frame is loaded with the requested page's backing-store
slot (as it stands after any victim write-back). -/
theorem c10_fault_modifies_only_returned_frame
    (vm vm' : VM) (p : Int) (f : Nat) (ep : PTEntry)
    (hpe : PageTable.get vm.page_table p = Except.ok ep)
    (hepf : (ep.present && ep.frame.isSome) = false)
    (h : vm.ensure_in_ram p = Except.ok (vm', f)) :
    (∀ f2, f2 ≠ f → vm'.phys_mem.frames.get? f2 = vm.phys_mem.frames.get? f2) ∧
    vm'.phys_mem.frames.get? f = vm'.backing_store.get? p.toNat := by
  unfold VM.ensure_in_ram at h
  split at h
  · simp at h
  · split at h
    · simp at h
    · rename_i entry heqget
      rw [hpe, Except.ok.injEq] at heqget
      subst heqget
      split at h
      · rename_i f0 hpres hfr
        rw [hpres, hfr] at hepf
        simp at hepf
      · split at h
        · simp at h
        · rename_i vm1 frame heqobtain
          obtain ⟨hframes1, -, -, -⟩ :=
            vm.obtain_frame_ok_shape vm1 frame heqobtain
          obtain ⟨hf, hlt, src, hsrc, hvm2⟩ :=
            vm1.page_in_ok_shape p.toNat frame vm' f h
          subst hf
          constructor
          · intro f2 hne
            rw [hvm2]
            dsimp only
            rw [List.get?_eq_getElem?, List.getElem?_set,
              if_neg (fun hc => hne hc.symm), ← List.get?_eq_getElem?,
              hframes1]
          · rw [hvm2]
            dsimp only
            rw [List.get?_eq_getElem?, List.getElem?_set, if_pos rfl,
              if_pos hlt, hsrc]

theorem c10_fault_modifies_only_returned_frame_witness :
    PageTable.get VM.init.page_table 0 = Except.ok ({} : PTEntry) ∧
    (({} : PTEntry).present && ({} : PTEntry).frame.isSome) = false ∧
    VM.init.ensure_in_ram 0 = Except.ok (scen [0], 0) ∧
    (scen [0]).phys_mem.frames.get? 1 = VM.init.phys_mem.frames.get? 1 ∧
    (scen [0]).phys_mem.frames.get? 0 = (scen [0]).backing_store.get? 0 :=
  ⟨by rfl, by decide, by rfl,
    (c10_fault_modifies_only_returned_frame VM.init (scen [0]) 0 0
      ({} : PTEntry) (by rfl) (by decide) (by rfl)).1 1 (by decide),
    (c10_fault_modifies_only_returned_frame VM.init (scen [0]) 0 0
      ({} : PTEntry) (by rfl) (by decide) (by rfl)).2⟩

/-- C8: on a freshly constructed VM every valid page starts Absent (its
entry is the default one, so the first `ensure_in_ram` takes the fault
path), and the call returns a frame whose contents equal the page's initial
backing-store slot: `PAGE_SIZE` zero bytes. -/
theorem c8_first_ensure_faults_and_loads_zeros (p : Int)
    (h0 : 0 ≤ p) (h1 : p < (VIRTUAL_PAGES : Int)) :
    PageTable.get VM.init.page_table p = Except.ok ({} : PTEntry) ∧
    ∃ vm' f, VM.init.ensure_in_ram p = Except.ok (vm', f) ∧
      vm'.phys_mem.frames.get? f = some (List.replicate PAGE_SIZE 0) := by
  unfold VIRTUAL_PAGES at h1
  interval_cases p <;>
    exact ⟨by rfl, _, 0, rfl, by decide⟩

theorem c8_first_ensure_faults_and_loads_zeros_witness :
    (0 : Int) ≤ 3 ∧ (3 : Int) < (VIRTUAL_PAGES : Int) ∧
    (PageTable.get VM.init.page_table 3 = Except.ok ({} : PTEntry) ∧
      ∃ vm' f, VM.init.ensure_in_ram 3 = Except.ok (vm', f) ∧
        vm'.phys_mem.frames.get? f = some (List.replicate PAGE_SIZE 0)) :=
  ⟨by decide, by decide,
    c8_first_ensure_faults_and_loads_zeros 3 (by decide) (by decide)⟩

theorem dictLookup_mem (d : List (Nat × Nat)) (k v : Nat)
    (h : dictLookup d k = some v) : (k, v) ∈ d := by
  induction d with
  | nil => simp [dictLookup] at h
  | cons kv rest ih =>
    obtain ⟨k', v'⟩ := kv
    unfold dictLookup at h
    split at h
    · rename_i hk
      rw [Option.some.injEq] at h
      subst h
      subst hk
      exact List.mem_cons_self _ _
    · exact List.mem_cons_of_mem _ (ih h)

theorem VM.obtain_frame_no_invalid (vm : VM) (s : VM)
    (hdict : ∀ kv ∈ vm.frame_to_page, kv.2 < VIRTUAL_PAGES) :
    vm.obtain_frame ≠ Except.error (VMError.invalidPageNumber, s) := by
  unfold VM.obtain_frame
  split
  · split
    · rename_i e halloc
      unfold PhysicalMemory.alloc_frame at halloc
      split at halloc
      · rw [Except.error.injEq] at halloc
        subst halloc
        simp
      · simp at halloc
    · simp
  · split
    · simp
    · split
      · simp
      · rename_i q2 hd
        split
        · rename_i e heqget
          intro hcontra
          rw [Except.error.injEq, Prod.mk.injEq] at hcontra
          obtain ⟨he, -⟩ := hcontra
          subst he
          have hlt := hdict _ (dictLookup_mem _ _ _ hd)
          unfold PageTable.get at heqget
          split at heqget
          · rename_i hq2cond
            simp only [Bool.or_eq_true, decide_eq_true_eq] at hq2cond
            unfold VIRTUAL_PAGES at hlt hq2cond
            rcases hq2cond with hc | hc <;> omega
          · split at heqget
            · simp at heqget
            · rw [Except.error.injEq] at heqget
              cases heqget
        · split
          · split
            · simp
            · split
              · simp
              · simp
          · simp

theorem VM.page_in_no_invalid (vm : VM) (p fr : Nat) (s : VM)
    (h : vm.page_in p fr = Except.error (VMError.invalidPageNumber, s)) :
    False := by
  unfold VM.page_in at h
  split at h
  · rw [Except.error.injEq, Prod.mk.injEq] at h
    cases h.1
  · split at h
    · simp at h
    · rw [Except.error.injEq, Prod.mk.injEq] at h
      cases h.1

/-- C6: `ensure_in_ram` fails with `InvalidPageNumber` exactly when the
page number is outside `[0, VIRTUAL_PAGES)` (given that, as in every
reachable state, the reverse map holds only valid page numbers), and the
error is raised before any mutation: the raise-time state it carries is the
caller's state unchanged. -/
theorem c6_invalid_page_number_iff (vm : VM) (p : Int)
    (hdict : ∀ kv ∈ vm.frame_to_page, kv.2 < VIRTUAL_PAGES) :
    ((p < 0 ∨ (VIRTUAL_PAGES : Int) ≤ p) →
        vm.ensure_in_ram p = Except.error (VMError.invalidPageNumber, vm)) ∧
    (∀ s, vm.ensure_in_ram p = Except.error (VMError.invalidPageNumber, s) →
        (p < 0 ∨ (VIRTUAL_PAGES : Int) ≤ p) ∧ s = vm) := by
  constructor
  · intro hp
    unfold VM.ensure_in_ram
    rw [if_pos]
    rcases hp with hc | hc <;> simp [hc]
  · intro s h
    unfold VM.ensure_in_ram at h
    split at h
    · rename_i hcond
      rw [Except.error.injEq, Prod.mk.injEq] at h
      refine ⟨?_, h.2.symm⟩
      simp only [Bool.or_eq_true, decide_eq_true_eq] at hcond
      exact hcond
    · exfalso
      rename_i hcond
      split at h
      · rename_i e heqget
        rw [Except.error.injEq, Prod.mk.injEq] at h
        obtain ⟨he, -⟩ := h
        subst he
        unfold PageTable.get at heqget
        rw [if_neg hcond] at heqget
        split at heqget
        · simp at heqget
        · rw [Except.error.injEq] at heqget
          cases heqget
      · split at h
        · simp at h
        · split at h
          · rename_i e heqobtain
            rw [Except.error.injEq] at h
            subst h
            exact vm.obtain_frame_no_invalid s hdict heqobtain
          · rename_i vm1 frame heqobtain
            exact vm1.page_in_no_invalid p.toNat frame s h

theorem c6_invalid_page_number_iff_witness :
    (∀ kv ∈ VM.init.frame_to_page, kv.2 < VIRTUAL_PAGES) ∧
    ((16 : Int) < 0 ∨ (VIRTUAL_PAGES : Int) ≤ 16) ∧
    VM.init.ensure_in_ram 16 =
      Except.error (VMError.invalidPageNumber, VM.init) :=
  ⟨by decide, by decide,
    (c6_invalid_page_number_iff VM.init 16 (by decide)).1 (by decide)⟩

theorem VM.obtain_frame_pt_cases (vm vm1 : VM) (fr : Nat)
    (h : vm.obtain_frame = Except.ok (vm1, fr)) (i : Nat) :
    vm1.page_table.get? i = vm.page_table.get? i ∨
    vm1.page_table.get? i = some ({} : PTEntry) := by
  unfold VM.obtain_frame at h
  split at h
  · split at h
    · simp at h
    · rw [Except.ok.injEq, Prod.mk.injEq] at h
      obtain ⟨h1, -⟩ := h
      rw [← h1]
      left
      rfl
  · split at h
    · simp at h
    · split at h
      · simp at h
      · rename_i q2 hd
        split at h
        · simp at h
        · have hset : ∀ vmx : VM,
              vmx.page_table = vm.page_table.set q2 ({} : PTEntry) →
              vmx.page_table.get? i = vm.page_table.get? i ∨
              vmx.page_table.get? i = some ({} : PTEntry) := by
            intro vmx hx
            rw [hx, List.get?_eq_getElem?, List.getElem?_set]
            by_cases hqi : q2 = i
            · rw [if_pos hqi]
              by_cases hql : q2 < vm.page_table.length
              · rw [if_pos hql]
                right
                rfl
              · rw [if_neg hql]
                left
                rw [List.get?_eq_getElem?,
                  List.getElem?_eq_none (by omega)]
            · rw [if_neg hqi]
              left
              rw [List.get?_eq_getElem?]
          split at h
          · split at h
            · simp at h
            · split at h
              · rw [Except.ok.injEq, Prod.mk.injEq] at h
                obtain ⟨h1, -⟩ := h
                exact hset vm1 (by rw [← h1])
              · simp at h
          · rw [Except.ok.injEq, Prod.mk.injEq] at h
            obtain ⟨h1, -⟩ := h
            exact hset vm1 (by rw [← h1])

theorem VM.ensure_in_ram_pt_cases (vm vm' : VM) (p : Int) (f : Nat)
    (h : vm.ensure_in_ram p = Except.ok (vm', f)) (i : Nat) :
    vm'.page_table.get? i = vm.page_table.get? i ∨
    vm'.page_table.get? i = some ({} : PTEntry) ∨
    vm'.page_table.get? i =
      some { frame := some f, present := true, dirty := false } := by
  unfold VM.ensure_in_ram at h
  split at h
  · simp at h
  · split at h
    · simp at h
    · split at h
      · rw [Except.ok.injEq, Prod.mk.injEq] at h
        obtain ⟨h1, -⟩ := h
        rw [← h1]
        left
        rfl
      · split at h
        · simp at h
        · rename_i vm1 frame heqobtain
          obtain ⟨hf, hlt, src, hsrc, hvm2⟩ :=
            vm1.page_in_ok_shape p.toNat frame vm' f h
          subst hf
          rw [hvm2]
          dsimp only
          rw [List.get?_eq_getElem?, List.getElem?_set]
          by_cases hpi : p.toNat = i
          · rw [if_pos hpi]
            by_cases hpl : p.toNat < vm1.page_table.length
            · rw [if_pos hpl]
              right
              right
              rfl
            · rw [if_neg hpl]
              rcases vm.obtain_frame_pt_cases vm1 f heqobtain i with hc | hc
              · left
                rw [← hc, List.get?_eq_getElem?,
                  List.getElem?_eq_none (by omega)]
              · rw [List.get?_eq_getElem?, List.getElem?_eq_none (by omega)]
                  at hc
                cases hc
          · rw [if_neg hpi, ← List.get?_eq_getElem?]
            rcases vm.obtain_frame_pt_cases vm1 f heqobtain i with hc | hc
            · left
              exact hc
            · right
              left
              exact hc

theorem VM.write_resident_pt_cases (vm : VM) (p : Nat) (o v : Int) (i : Nat) :
    (vm.write_resident p o v).page_table.get? i = vm.page_table.get? i ∨
    ∃ e f0, vm.page_table.get? i = some e ∧ e.frame = some f0 ∧
      (vm.write_resident p o v).page_table.get? i =
        some { e with dirty := true } := by
  unfold VM.write_resident
  split
  · rename_i e0 hget
    split
    · rename_i f0 hf0
      split
      · rename_i pm' hwb
        unfold VM.mark_dirty
        split
        · rename_i e1 hget1
          dsimp only at hget1
          rw [hget] at hget1
          rw [Option.some.injEq] at hget1
          subst hget1
          dsimp only
          rw [List.get?_eq_getElem?, List.getElem?_set]
          by_cases hpi : p = i
          · rw [if_pos hpi]
            have hlen : p < vm.page_table.length := by
              by_contra hcon
              rw [List.get?_eq_getElem?,
                List.getElem?_eq_none (by omega)] at hget
              cases hget
            rw [if_pos hlen]
            right
            exact ⟨e0, f0, hpi ▸ hget, hf0, rfl⟩
          · rw [if_neg hpi, ← List.get?_eq_getElem?]
            left
            rfl
        · rename_i hget1
          dsimp only at hget1
          rw [hget] at hget1
          cases hget1
      · left
        rfl
    · left
      rfl
  · left
    rfl

/-- C4: page-table entry invariant.  In every state reachable from a fresh
VM by `ensure_in_ram` calls and byte-level writes (which mark only written
resident pages dirty), each entry satisfies
`present = false → frame = none ∧ dirty = false` and
`dirty = true → present = true`. -/
theorem c4_page_table_entry_invariant (vm : VM) (hreach : VM.Reachable vm) :
    ∀ i e, vm.page_table.get? i = some e →
      (e.present = false → e.frame = none ∧ e.dirty = false) ∧
      (e.dirty = true → e.present = true) := by
  induction hreach with
  | init =>
    intro i e he
    have hE : ({} : PTEntry) = e := by
      unfold VM.init PageTable.init at he
      dsimp only at he
      rw [List.get?_eq_getElem?, List.getElem?_replicate] at he
      split at he
      · exact Option.some.inj he
      · cases he
    subst hE
    exact ⟨fun _ => ⟨rfl, rfl⟩, fun hd => Bool.noConfusion hd⟩
  | ensure vmn vm' p f hr heq ih =>
    intro i e he
    rcases VM.ensure_in_ram_pt_cases vmn vm' p f heq i with hc | hc | hc
    · rw [hc] at he
      exact ih i e he
    · rw [hc, Option.some.injEq] at he
      subst he
      exact ⟨fun _ => ⟨rfl, rfl⟩, fun hd => Bool.noConfusion hd⟩
    · rw [hc, Option.some.injEq] at he
      subst he
      exact ⟨fun hp => Bool.noConfusion hp, fun _ => rfl⟩
  | write vmn p o v hr ih =>
    intro i e he
    rcases VM.write_resident_pt_cases vmn p o v i with hc | ⟨e0, f0, hget, hf0, hc⟩
    · rw [hc] at he
      exact ih i e he
    · rw [hc, Option.some.injEq] at he
      subst he
      have hinv := ih i e0 hget
      have hpres : e0.present = true := by
        by_contra hcon
        rw [Bool.not_eq_true] at hcon
        obtain ⟨hfr, -⟩ := hinv.1 hcon
        rw [hfr] at hf0
        cases hf0
      constructor
      · intro hp
        have hp2 : e0.present = false := hp
        rw [hpres] at hp2
        cases hp2
      · intro _
        exact hpres

theorem c4_page_table_entry_invariant_witness :
    ((scen [0]).write_resident 0 0 5).page_table.get? 0 =
      some { frame := some 0, present := true, dirty := true } ∧
    ((({ frame := some 0, present := true, dirty := true } : PTEntry).present
          = false →
        ({ frame := some 0, present := true, dirty := true } : PTEntry).frame
            = none ∧
        ({ frame := some 0, present := true, dirty := true } : PTEntry).dirty
            = false) ∧
      (({ frame := some 0, present := true, dirty := true } : PTEntry).dirty
          = true →
        ({ frame := some 0, present := true, dirty := true } : PTEntry).present
            = true)) :=
  ⟨by decide,
    c4_page_table_entry_invariant ((scen [0]).write_resident 0 0 5)
      (VM.Reachable.write (scen [0]) 0 0 5
        (VM.Reachable.ensure VM.init (scen [0]) 0 0 VM.Reachable.init rfl))
      0 { frame := some 0, present := true, dirty := true } (by decide)⟩

theorem pyIndex_eq_none_iff (l : List α) (i : Int) :
    pyIndex l i = none ↔ i < -(l.length : Int) ∨ (l.length : Int) ≤ i := by
  unfold pyIndex pyAdjust
  constructor
  · intro h
    by_cases h1 : i < 0
    · rw [if_pos h1] at h
      by_cases h2 : i + (l.length : Int) < 0
      · omega
      · rw [if_neg h2, List.get?_eq_getElem?, List.getElem?_eq_none_iff] at h
        omega
    · rw [if_neg h1, if_neg (show ¬ i < 0 from h1),
        List.get?_eq_getElem?, List.getElem?_eq_none_iff] at h
      omega
  · intro h
    by_cases h1 : i < 0
    · rw [if_pos h1]
      by_cases h2 : i + (l.length : Int) < 0
      · rw [if_pos h2]
      · exfalso
        omega
    · rw [if_neg h1, if_neg (show ¬ i < 0 from h1),
        List.get?_eq_getElem?]
      exact List.getElem?_eq_none (by omega)

theorem pySet_eq_none_iff (l : List α) (i : Int) (a : α) :
    pySet l i a = none ↔ i < -(l.length : Int) ∨ (l.length : Int) ≤ i := by
  unfold pySet pyAdjust
  constructor
  · intro h
    by_cases h1 : i < 0
    · rw [if_pos h1] at h
      by_cases h2 : i + (l.length : Int) < 0
      · omega
      · rw [if_neg h2] at h
        split at h
        · cases h
        · omega
    · rw [if_neg h1, if_neg (show ¬ i < 0 from h1)] at h
      split at h
      · cases h
      · omega
  · intro h
    by_cases h1 : i < 0
    · rw [if_pos h1]
      by_cases h2 : i + (l.length : Int) < 0
      · rw [if_pos h2]
      · exfalso
        omega
    · rw [if_neg h1, if_neg (show ¬ i < 0 from h1), if_neg (by omega)]

theorem pyIndex_mem (l : List α) (i : Int) (a : α)
    (h : pyIndex l i = some a) : a ∈ l := by
  unfold pyIndex at h
  split at h
  · cases h
  · exact List.get?_mem h

theorem pyIndex_nonneg (l : List α) (i : Int) (h : 0 ≤ i) :
    pyIndex l i = l.get? i.toNat := by
  unfold pyIndex pyAdjust
  rw [if_neg (show ¬ i < 0 by omega), if_neg (show ¬ i < 0 by omega)]

theorem pySet_nonneg (l : List α) (i : Int) (a : α) (h : 0 ≤ i)
    (hlt : i.toNat < l.length) :
    pySet l i a = some (l.set i.toNat a) := by
  unfold pySet pyAdjust
  rw [if_neg (show ¬ i < 0 by omega), if_neg (show ¬ i < 0 by omega),
    if_pos hlt]

/-- C9 counterexample: `read_byte` called with `frame_no = -1` — which is
outside `[0, PHYSICAL_FRAMES)` — does NOT fail with `IndexOutOfRange`:
following Python's negative-index semantics it silently reads the last
frame and returns a byte. -/
theorem c9_counterexample_negative_index_read :
    PhysicalMemory.init.read_byte (-1) 0 = Except.ok 0 ∧
    ((-1 : Int) < 0 ∨ (PHYSICAL_FRAMES : Int) ≤ -1) := by
  constructor
  · rfl
  · left
    decide

/-- C9 amended: `read_byte`/`write_byte` fail with `IndexOutOfRange` if and
only if the frame index is outside Python's accepted range
`[-PHYSICAL_FRAMES, PHYSICAL_FRAMES)` or (the frame index being accepted)
the offset is outside `[-PAGE_SIZE, PAGE_SIZE)`; negative in-range indices
wrap around Python-style instead of failing, and on failure no state is
produced.  For in-range non-negative arguments `write_byte` stores exactly
the low 8 bits of the value: reading the byte back yields `value mod 256`. -/
theorem c9_amended_read_write_ranges (pm : PhysicalMemory) (fi off v : Int)
    (hl : pm.frames.length = PHYSICAL_FRAMES)
    (hfr : ∀ fr ∈ pm.frames, fr.length = PAGE_SIZE) :
    (pm.read_byte fi off = Except.error VMError.indexOutOfRange ↔
      (fi < -(PHYSICAL_FRAMES : Int) ∨ (PHYSICAL_FRAMES : Int) ≤ fi) ∨
      ((-(PHYSICAL_FRAMES : Int) ≤ fi ∧ fi < (PHYSICAL_FRAMES : Int)) ∧
        (off < -(PAGE_SIZE : Int) ∨ (PAGE_SIZE : Int) ≤ off))) ∧
    (pm.write_byte fi off v = Except.error VMError.indexOutOfRange ↔
      (fi < -(PHYSICAL_FRAMES : Int) ∨ (PHYSICAL_FRAMES : Int) ≤ fi) ∨
      ((-(PHYSICAL_FRAMES : Int) ≤ fi ∧ fi < (PHYSICAL_FRAMES : Int)) ∧
        (off < -(PAGE_SIZE : Int) ∨ (PAGE_SIZE : Int) ≤ off))) ∧
    (0 ≤ fi → fi < (PHYSICAL_FRAMES : Int) → 0 ≤ off →
      off < (PAGE_SIZE : Int) →
      ∀ pm', pm.write_byte fi off v = Except.ok pm' →
        pm'.read_byte fi off = Except.ok (v % (256 : Int)).toNat) := by
  refine ⟨?_, ?_, ?_⟩
  · -- read_byte error characterization
    cases hpi : pyIndex pm.frames fi with
    | none =>
      have hred : pm.read_byte fi off = Except.error VMError.indexOutOfRange := by
        simp only [PhysicalMemory.read_byte, hpi]
      have hout := (pyIndex_eq_none_iff pm.frames fi).mp hpi
      rw [hl] at hout
      rw [hred]
      exact iff_of_true rfl (Or.inl hout)
    | some fr =>
      have hin : ¬(fi < -((PHYSICAL_FRAMES : Nat) : Int) ∨
          ((PHYSICAL_FRAMES : Nat) : Int) ≤ fi) := by
        intro hcon
        have hn := (pyIndex_eq_none_iff pm.frames fi).mpr
          (by rw [hl]; exact hcon)
        rw [hpi] at hn
        cases hn
      have hfl : fr.length = PAGE_SIZE := hfr fr (pyIndex_mem _ _ _ hpi)
      cases hpo : pyIndex fr off with
      | none =>
        have hred : pm.read_byte fi off =
            Except.error VMError.indexOutOfRange := by
          simp only [PhysicalMemory.read_byte, hpi, hpo]
        have hout := (pyIndex_eq_none_iff fr off).mp hpo
        rw [hfl] at hout
        rw [hred]
        exact iff_of_true rfl (Or.inr ⟨by omega, hout⟩)
      | some b =>
        have hred : pm.read_byte fi off = Except.ok b := by
          simp only [PhysicalMemory.read_byte, hpi, hpo]
        rw [hred]
        refine iff_of_false (by simp) ?_
        intro hcon
        rcases hcon with hcon | ⟨-, hcon⟩
        · exact hin hcon
        · have hn := (pyIndex_eq_none_iff fr off).mpr
            (by rw [hfl]; exact hcon)
          rw [hpo] at hn
          cases hn
  · -- write_byte error characterization
    cases hpi : pyIndex pm.frames fi with
    | none =>
      have hred : pm.write_byte fi off v =
          Except.error VMError.indexOutOfRange := by
        simp only [PhysicalMemory.write_byte, hpi]
      have hout := (pyIndex_eq_none_iff pm.frames fi).mp hpi
      rw [hl] at hout
      rw [hred]
      exact iff_of_true rfl (Or.inl hout)
    | some fr =>
      have hin : ¬(fi < -((PHYSICAL_FRAMES : Nat) : Int) ∨
          ((PHYSICAL_FRAMES : Nat) : Int) ≤ fi) := by
        intro hcon
        have hn := (pyIndex_eq_none_iff pm.frames fi).mpr
          (by rw [hl]; exact hcon)
        rw [hpi] at hn
        cases hn
      have hfl : fr.length = PAGE_SIZE := hfr fr (pyIndex_mem _ _ _ hpi)
      cases hps : pySet fr off (v % (256 : Int)).toNat with
      | none =>
        have hred : pm.write_byte fi off v =
            Except.error VMError.indexOutOfRange := by
          simp only [PhysicalMemory.write_byte, hpi, hps]
        have hout := (pySet_eq_none_iff fr off _).mp hps
        rw [hfl] at hout
        rw [hred]
        exact iff_of_true rfl (Or.inr ⟨by omega, hout⟩)
      | some fr2 =>
        cases hps2 : pySet pm.frames fi fr2 with
        | none =>
          exfalso
          have hn := (pySet_eq_none_iff pm.frames fi fr2).mp hps2
          rw [hl] at hn
          exact hin hn
        | some frames2 =>
          have hred : pm.write_byte fi off v =
              Except.ok { pm with frames := frames2 } := by
            simp only [PhysicalMemory.write_byte, hpi, hps, hps2]
          rw [hred]
          refine iff_of_false (by simp) ?_
          intro hcon
          rcases hcon with hcon | ⟨-, hcon⟩
          · exact hin hcon
          · have hn := (pySet_eq_none_iff fr off
                (v % (256 : Int)).toNat).mpr (by rw [hfl]; exact hcon)
            rw [hps] at hn
            cases hn
  · -- in-range non-negative write stores the low 8 bits
    intro h0 h1 h2 h3 pm' hwr
    have hfi : fi.toNat < pm.frames.length := by
      rw [hl]
      unfold PHYSICAL_FRAMES at h1 ⊢
      omega
    obtain ⟨fr, hfr0⟩ : ∃ fr, pm.frames.get? fi.toNat = some fr := by
      rw [List.get?_eq_getElem?]
      exact ⟨_, List.getElem?_eq_getElem hfi⟩
    have hfl : fr.length = PAGE_SIZE := hfr fr (List.get?_mem hfr0)
    have hoff : off.toNat < fr.length := by
      rw [hfl]
      unfold PAGE_SIZE at h3 ⊢
      omega
    simp only [PhysicalMemory.write_byte, pyIndex_nonneg _ _ h0, hfr0,
      pySet_nonneg _ _ _ h2 hoff, pySet_nonneg _ _ _ h0 hfi] at hwr
    rw [Except.ok.injEq] at hwr
    subst hwr
    have hg1 : (pm.frames.set fi.toNat
          (fr.set off.toNat (v % (256 : Int)).toNat)).get? fi.toNat =
        some (fr.set off.toNat (v % (256 : Int)).toNat) := by
      rw [List.get?_eq_getElem?, List.getElem?_set, if_pos rfl, if_pos hfi]
    have hg2 : (fr.set off.toNat (v % (256 : Int)).toNat).get? off.toNat =
        some ((v % (256 : Int)).toNat) := by
      rw [List.get?_eq_getElem?, List.getElem?_set, if_pos rfl, if_pos hoff]
    simp only [PhysicalMemory.read_byte, pyIndex_nonneg _ _ h0,
      pyIndex_nonneg _ _ h2, hg1, hg2]

theorem c9_amended_read_write_ranges_witness :
    PhysicalMemory.init.frames.length = PHYSICAL_FRAMES ∧
    (∀ fr ∈ PhysicalMemory.init.frames, fr.length = PAGE_SIZE) ∧
    PhysicalMemory.init.read_byte 8 0 =
      Except.error VMError.indexOutOfRange ∧
    PhysicalMemory.init.write_byte 0 0 300 = Except.ok c9pm ∧
    c9pm.read_byte 0 0 = Except.ok 44 :=
  ⟨by decide, by decide,
    (c9_amended_read_write_ranges PhysicalMemory.init 8 0 0
      (by decide) (by decide)).1.mpr (Or.inl (by decide)),
    by rfl,
    (c9_amended_read_write_ranges PhysicalMemory.init 0 0 300
      (by decide) (by decide)).2.2
      (by decide) (by decide) (by decide) (by decide) c9pm (by rfl)⟩
